import Mathlib

/-!
Verification development for the pi-gui multi-tab server
(`server/index.ts`, the pi-remote-web-ui variant) and its browser client
(`src/main.ts`).

The server keeps three pieces of shared mutable state: an insertion-ordered
tab registry (`tabOrder` + `tabs`), a binding table from WebSocket clients to
the tab they are viewing (`clientActiveTab`), and a map of pending extension
UI requests.  We embed that state as a Lean structure, JS `Map`s as
association lists with `Map.set` / `Map.delete` semantics, and the side
effects of a command handler (socket sends, session disposal, file unlink)
as an explicit list of `Effect`s produced in program order.
-/

/-- Association-list lookup, mirroring `Map.get`: first entry with the key. -/
def alookup {α β : Type} [DecidableEq α] : List (α × β) → α → Option β
  | [], _ => none
  | (a, b) :: rest, key => if a = key then some b else alookup rest key

/-- Association-list update, mirroring `Map.set`: replaces the entry in
place when the key is present (preserving insertion order), else appends. -/
def aset {α β : Type} [DecidableEq α] : List (α × β) → α → β → List (α × β)
  | [], key, val => [(key, val)]
  | (a, b) :: rest, key, val =>
      if a = key then (key, val) :: rest else (a, b) :: aset rest key val

/-- Association-list deletion, mirroring `Map.delete` (keys are unique in
every reachable state, so filtering all occurrences agrees with it). -/
def aerase {α β : Type} [DecidableEq α] (l : List (α × β)) (key : α) : List (α × β) :=
  l.filter (fun p => decide (p.1 ≠ key))

/-- `Array.prototype.indexOf`: index of the first occurrence, `-1` if absent. -/
def jsIndexOf {α : Type} [DecidableEq α] : List α → α → Int
  | [], _ => -1
  | a :: l, x =>
      if a = x then 0
      else
        let r := jsIndexOf l x
        if r = -1 then -1 else r + 1

/-- `readyState` of a WebSocket. -/
inductive ReadyState : Type
  | CONNECTING
  | OPEN
  | CLOSING
  | CLOSED
deriving DecidableEq, Repr

/-- A WebSocket client as the server sees it: an identity plus `readyState`. -/
structure Client : Type where
  cid : Nat
  ready : ReadyState
deriving DecidableEq, Repr

/-- The slice of an `AgentSession` the server reads: `sessionId`,
`messages`, `isStreaming`, `model?.id`.  Message payloads are opaque. -/
structure AgentSession : Type where
  sessionId : String
  messages : List String
  isStreaming : Bool
  modelId : Option String
deriving DecidableEq, Repr

/-- `TabEntry` from the server: `{ tabId, name, session }`. -/
structure TabEntry : Type where
  tabId : String
  name : String
  session : AgentSession
deriving DecidableEq, Repr

/-- One row of `SessionManager.listAll()` (`SessionInfo`).  `created` and
`modified` are timestamps (`getTime()` values). -/
structure SessionInfo : Type where
  id : String
  path : String
  name : Option String
  cwd : String
  created : Nat
  modified : Nat
  messageCount : Nat
  firstMessage : String
deriving DecidableEq, Repr

/-- Server-to-client messages. -/
inductive OutMsg : Type
  | tabsUpdate (tabs : List (String × String))
  | stateSync (tabId : String) (messages : List String) (streaming : Bool)
      (modelId : Option String) (sessionId : String)
  | sessionsList (sessions : List SessionInfo)
  | extUiRequest (id : String) (request : String)
  | sessionEvent (ev : String)
deriving DecidableEq, Repr

/-- An observable side effect of a command handler, in program order. -/
inductive Effect : Type
  | send (cid : Nat) (msg : OutMsg)
  | dispose (tabId : String)
  | unlink (path : String)
deriving DecidableEq, Repr

/-- The server's shared mutable state: tab registry (`tabOrder`, `tabs`),
connected clients (`wss.clients`), client binding table (`clientActiveTab`),
default-name counter (`tabCounter`), pending extension request ids. -/
structure ServerState : Type where
  tabOrder : List String
  tabs : List (String × TabEntry)
  clients : List Client
  clientActiveTab : List (Nat × String)
  tabCounter : Nat
  pendingIds : List String
deriving DecidableEq, Repr

/-- `getTabsList()`: registry-order snapshot of `{tabId, name}` pairs. -/
def getTabsList (st : ServerState) : List (String × String) :=
  (st.tabOrder.filter (fun id => (alookup st.tabs id).isSome)).filterMap
    (fun id => (alookup st.tabs id).map (fun t => (t.tabId, t.name)))

/-- `broadcastAll(wss, msg)`: send to every client whose state is OPEN. -/
def broadcastAll (clients : List Client) (msg : OutMsg) : List Effect :=
  clients.filterMap (fun c =>
    if c.ready = ReadyState.OPEN then some (Effect.send c.cid msg) else none)

/-- `broadcastToTabViewers(wss, tabId, msg)`: send only to OPEN clients
whose entry in the binding table equals `tabId`. -/
def broadcastToTabViewers (clients : List Client) (bind : List (Nat × String))
    (tabId : String) (msg : OutMsg) : List Effect :=
  clients.filterMap (fun c =>
    if c.ready = ReadyState.OPEN ∧ alookup bind c.cid = some tabId then
      some (Effect.send c.cid msg)
    else none)

/-- The `state_sync` message `sendStateSync` builds for a tab entry. -/
def stateSyncMsg (entry : TabEntry) : OutMsg :=
  OutMsg.stateSync entry.tabId entry.session.messages entry.session.isStreaming
    entry.session.modelId entry.session.sessionId

/-- `sendStateSync(ws, entry)`: a single unicast send. -/
def sendStateSync (ws : Nat) (entry : TabEntry) : List Effect :=
  [Effect.send ws (stateSyncMsg entry)]

/-- Delivery of a runtime event for the tab `tabId`, as registered by
`createTab` via `session.subscribe((event) => broadcastToTabViewers(wss, tabId, event))`. -/
def sessionEventDelivery (st : ServerState) (tabId : String) (ev : String) : List Effect :=
  broadcastToTabViewers st.clients st.clientActiveTab tabId (OutMsg.sessionEvent ev)

/-- `closeTab(tabId)`: refuses to close the last remaining tab (returns the
same id, no disposal); otherwise disposes the session, removes the tab from
the map and the order, and returns the replacement id
`remainingOrder[Math.max(0, idx - 1)] ?? remainingOrder[0] ?? null`. -/
def closeTab (st : ServerState) (tabId : String) :
    ServerState × List Effect × Option String :=
  match alookup st.tabs tabId with
  | none => (st, [], none)
  | some _ =>
    if st.tabs.length ≤ 1 then (st, [], some tabId)
    else
      let idx := jsIndexOf st.tabOrder tabId
      let remainingOrder := st.tabOrder.filter
        (fun id => decide (id ≠ tabId) && (alookup st.tabs id).isSome)
      let replacementId :=
        (remainingOrder.get? (max 0 (idx - 1)).toNat).orElse
          (fun _ => remainingOrder.get? 0)
      ({ st with
          tabs := aerase st.tabs tabId,
          tabOrder := st.tabOrder.erase tabId },
        [Effect.dispose tabId],
        replacementId)

/-- `createTab`: increments `tabCounter`, constructs the runtime session
(the outcome of `await createAgentSession` is the `mkSession` parameter,
since the runtime is an external collaborator), derives the display name
(explicit arg, else the resumed session's stored name, else the counter
default), and only on success registers the entry in `tabs` and `tabOrder`.
On failure the exception propagates with the registry untouched (the
counter was already incremented before the await). -/
def createTab (st : ServerState) (freshId : String)
    (mkSession : Except String AgentSession)
    (nameArg : Option String) (sessionPath : Option String)
    (storedName : Option String) :
    ServerState × Except String (TabEntry × List Effect) :=
  let st1 := { st with tabCounter := st.tabCounter + 1 }
  match mkSession with
  | Except.error e => (st1, Except.error e)
  | Except.ok session =>
    let displayName :=
      match nameArg with
      | some n => n
      | none =>
        match sessionPath with
        | some _ => storedName.getD ("Session " ++ toString st1.tabCounter)
        | none => "Session " ++ toString st1.tabCounter
    let entry : TabEntry := { tabId := freshId, name := displayName, session := session }
    ({ st1 with
        tabs := aset st1.tabs freshId entry,
        tabOrder := st1.tabOrder ++ [freshId] },
      Except.ok (entry, []))

/-- The `new_session` command: create a tab, bind the requesting client to
it, broadcast the tab list to everyone, state-sync the requester.  A
creation failure is caught by the handler's try/catch: only a log line, no
sends, and the registry is left as `createTab` left it. -/
def handleNewSession (st : ServerState) (ws : Nat) (freshId : String)
    (mkSession : Except String AgentSession) : ServerState × List Effect :=
  match createTab st freshId mkSession none none none with
  | (st1, Except.error _) => (st1, [])
  | (st1, Except.ok (entry, effs)) =>
    let st2 := { st1 with clientActiveTab := aset st1.clientActiveTab ws entry.tabId }
    (st2, effs ++ broadcastAll st2.clients (OutMsg.tabsUpdate (getTabsList st2))
      ++ sendStateSync ws entry)

/-- The redirect target computed inside the close-tab client loop:
`replacementId ? tabs.get(replacementId) : tabs.get(tabOrder[0])`. -/
def redirectFallback (tabs : List (String × TabEntry)) (tabOrder : List String)
    (replacementId : Option String) : Option TabEntry :=
  match replacementId with
  | some rid => alookup tabs rid
  | none =>
    match tabOrder with
    | [] => none
    | h :: _ => alookup tabs h

/-- The loop over `wss.clients` after a close: every OPEN client whose
binding equals the closed tab is rebound to the fallback tab and sent a
`state_sync` for it. -/
def redirectClients (tabs : List (String × TabEntry)) (tabOrder : List String)
    (clients : List Client) (targetTabId : String) (replacementId : Option String)
    (bind : List (Nat × String)) : List (Nat × String) × List Effect :=
  match clients with
  | [] => (bind, [])
  | c :: rest =>
    if c.ready = ReadyState.OPEN ∧ alookup bind c.cid = some targetTabId then
      match redirectFallback tabs tabOrder replacementId with
      | some fb =>
        let bind1 := aset bind c.cid fb.tabId
        let r := redirectClients tabs tabOrder rest targetTabId replacementId bind1
        (r.1, Effect.send c.cid (stateSyncMsg fb) :: r.2)
      | none => redirectClients tabs tabOrder rest targetTabId replacementId bind
    else redirectClients tabs tabOrder rest targetTabId replacementId bind

/-- The close-tab flow shared by the `close_tab` and `delete_session`
handlers: `closeTab`, then `broadcastTabsList`, then the redirect loop. -/
def closeTabFlow (st : ServerState) (targetTabId : String) : ServerState × List Effect :=
  let r := closeTab st targetTabId
  let st1 := r.1
  let effs2 := broadcastAll st1.clients (OutMsg.tabsUpdate (getTabsList st1))
  let rb := redirectClients st1.tabs st1.tabOrder st1.clients targetTabId r.2.2
    st1.clientActiveTab
  ({ st1 with clientActiveTab := rb.1 }, r.2.1 ++ effs2 ++ rb.2)

/-- The `close_tab` command: drops unknown targets, refuses to close the
last tab, otherwise runs the close-tab flow. -/
def handleCloseTab (st : ServerState) (targetTabId : String) : ServerState × List Effect :=
  if (alookup st.tabs targetTabId).isSome then
    if st.tabs.length ≤ 1 then (st, [])
    else closeTabFlow st targetTabId
  else (st, [])

/-- The `open_session` command: look the path up in storage, and if a tab
is already open on that persisted session id just rebind and sync the
requester; otherwise open it as a new tab. -/
def handleOpenSession (st : ServerState) (ws : Nat) (sessionPath : String)
    (allSessions : List SessionInfo) (freshId : String)
    (mkSession : Except String AgentSession) (storedName : Option String) :
    ServerState × List Effect :=
  if sessionPath = "" then (st, [])
  else
    match allSessions.find? (fun (s : SessionInfo) => decide (s.path = sessionPath)) with
    | none => (st, [])
    | some info =>
      match (st.tabs.map Prod.snd).find?
          (fun (t : TabEntry) => decide (t.session.sessionId = info.id)) with
      | some alreadyOpen =>
        ({ st with clientActiveTab := aset st.clientActiveTab ws alreadyOpen.tabId },
          sendStateSync ws alreadyOpen)
      | none =>
        match createTab st freshId mkSession none (some sessionPath) storedName with
        | (st1, Except.error _) => (st1, [])
        | (st1, Except.ok (entry, effs)) =>
          let st2 := { st1 with
            clientActiveTab := aset st1.clientActiveTab ws entry.tabId }
          (st2, effs ++ broadcastAll st2.clients (OutMsg.tabsUpdate (getTabsList st2))
            ++ sendStateSync ws entry)

/-- Insertion sort by descending `modified`, modelling
`sort((a, b) => b.modified.getTime() - a.modified.getTime())`. -/
def insertByModified (s : SessionInfo) : List SessionInfo → List SessionInfo
  | [] => [s]
  | t :: rest =>
      if t.modified < s.modified then s :: t :: rest else t :: insertByModified s rest

/-- Sort a session list newest-first. -/
def sortByModifiedDesc : List SessionInfo → List SessionInfo
  | [] => []
  | s :: rest => insertByModified s (sortByModifiedDesc rest)

/-- The `delete_session` command: when the path names a stored session that
is currently open in a tab and more than one tab exists, run the close-tab
flow for that tab; then unlink the file; then send the requester the
refreshed sessions list (open sessions excluded, newest first). -/
def handleDeleteSession (st : ServerState) (ws : Nat) (sessionPath : String)
    (allForDelete : List SessionInfo) (updatedSessions : List SessionInfo) :
    ServerState × List Effect :=
  if sessionPath = "" then (st, [])
  else
    let dres :=
      match allForDelete.find? (fun (s : SessionInfo) => decide (s.path = sessionPath)) with
      | none => (st, ([] : List Effect))
      | some info =>
        match (st.tabs.map Prod.snd).find?
            (fun (t : TabEntry) => decide (t.session.sessionId = info.id)) with
        | none => (st, [])
        | some openTab =>
          if 1 < st.tabs.length then closeTabFlow st openTab.tabId else (st, [])
    let st1 := dres.1
    let openIdsAfter := st1.tabs.map (fun (p : String × TabEntry) => p.2.session.sessionId)
    let availableAfter := sortByModifiedDesc
      (updatedSessions.filter (fun (s : SessionInfo) => decide (¬ s.id ∈ openIdsAfter)))
    (st1, dres.2 ++ [Effect.unlink sessionPath]
      ++ [Effect.send ws (OutMsg.sessionsList availableAfter)])

/-- The per-request state a `createDialogPromise` call leaves behind while
the promise is outstanding: whether this id is still in
`pendingExtensionRequests`, whether the timer is still set, whether the
abort listener is still attached, and the promise's resolution (a JS
promise resolves at most once; `none` = still pending). -/
structure DialogState (T : Type) : Type where
  pendingEntry : Bool
  timerArmed : Bool
  listenerArmed : Bool
  result : Option T
deriving DecidableEq, Repr

/-- The three resolution sources of a pending correlated request. -/
inductive DialogEvent (R : Type) : Type
  | reply (r : R)
  | timerFire
  | abortFire
deriving DecidableEq, Repr

/-- JS `resolve`: only the first call settles the promise. -/
def resolveOnce {T : Type} (s : DialogState T) (v : T) : DialogState T :=
  match s.result with
  | some _ => s
  | none => { s with result := some v }

/-- One resolution event hitting the request.  A reply goes through the
`extension_ui_response` dispatcher (`pendingExtensionRequests.get(id)` must
still hold the entry, which is deleted before `pending.resolve` runs
`cleanup` and `resolve(parseResponse(response))`).  The timer callback can
only run while the timeout is still set (`cleanup` ran `clearTimeout`
otherwise), and the abort handler only while the listener is attached
(`cleanup` removed it otherwise).  `cleanup` clears the timer, removes the
listener and deletes the pending entry. -/
def dialogStep {R T : Type} (parseResponse : R → T) (defaultValue : T)
    (s : DialogState T) : DialogEvent R → DialogState T
  | DialogEvent.reply r =>
      if s.pendingEntry then
        resolveOnce
          { s with pendingEntry := false, timerArmed := false, listenerArmed := false }
          (parseResponse r)
      else s
  | DialogEvent.timerFire =>
      if s.timerArmed then
        resolveOnce
          { s with pendingEntry := false, timerArmed := false, listenerArmed := false }
          defaultValue
      else s
  | DialogEvent.abortFire =>
      if s.listenerArmed then
        resolveOnce
          { s with pendingEntry := false, timerArmed := false, listenerArmed := false }
          defaultValue
      else s

/-- A whole sequence of resolution events, in arrival order. -/
def runDialog {R T : Type} (parseResponse : R → T) (defaultValue : T)
    (s : DialogState T) (evs : List (DialogEvent R)) : DialogState T :=
  evs.foldl (dialogStep parseResponse defaultValue) s

/-- Whether an event's resolution source is still armed in a state. -/
def armedEvent {R T : Type} (s : DialogState T) : DialogEvent R → Bool
  | DialogEvent.reply _ => s.pendingEntry
  | DialogEvent.timerFire => s.timerArmed
  | DialogEvent.abortFire => s.listenerArmed

/-- The outcome each resolution source produces. -/
def eventOutcome {R T : Type} (parseResponse : R → T) (defaultValue : T) :
    DialogEvent R → T
  | DialogEvent.reply r => parseResponse r
  | DialogEvent.timerFire => defaultValue
  | DialogEvent.abortFire => defaultValue

/-- The immediate result of a `createDialogPromise` call. -/
structure DialogInit (T : Type) : Type where
  immediate : Option T
  pending : List String
  effects : List Effect
  dialog : Option (DialogState T)
deriving Repr

/-- `createDialogPromise(opts, defaultValue, request, parseResponse)`: if
the cancellation signal is already aborted, resolve immediately to the
default — no id allocated, no pending entry, no broadcast.  Otherwise
register the pending entry keyed by a fresh id, arm the timer (when a
timeout is configured) and the abort listener (when a signal is present),
and broadcast `extension_ui_request` to all connections. -/
def createDialogPromise {T : Type} (clients : List Client) (pending : List String)
    (hasSignal signalAborted : Bool) (timeout : Option Nat) (freshId : String)
    (defaultValue : T) (request : String) : DialogInit T :=
  if hasSignal && signalAborted then
    { immediate := some defaultValue, pending := pending, effects := [], dialog := none }
  else
    { immediate := none,
      pending := pending ++ [freshId],
      effects := broadcastAll clients (OutMsg.extUiRequest freshId request),
      dialog := some
        { pendingEntry := true, timerArmed := timeout.isSome,
          listenerArmed := hasSignal, result := none } }

/-!
Client side (`src/main.ts`): the state-sync receive path.  We embed the
fields of the client state the `state_sync` handlers touch, the rebuild of
the conversation list from a sync's message array, and the two relevant
cases of `handleServerEvent`.
-/

/-- A content block of a rendered conversation item. -/
inductive Block : Type
  | text (t : String)
  | thinking (t : String) (expanded : Bool)
  | tool (callId : String) (name : String) (args : String) (output : String)
      (isError : Bool) (running : Bool) (expanded : Bool)
deriving DecidableEq, Repr

/-- One rendered conversation item. -/
inductive ConvItem : Type
  | user (text : String)
  | assistant (blocks : List Block) (streaming : Bool)
deriving DecidableEq, Repr

/-- An element of a structured `content` array: `{ type, text }`. -/
structure ContentPart : Type where
  type : String
  text : String
deriving DecidableEq, Repr

/-- The `content` of a user message: a plain string, an array of typed
parts, or anything else (rendered through `String(content)`). -/
inductive UserContent : Type
  | str (s : String)
  | parts (l : List ContentPart)
  | other (shown : String)
deriving DecidableEq, Repr

/-- An assistant content entry: text, thinking, a tool call, or an
unrecognized type (skipped). -/
inductive AssistContent : Type
  | text (t : String)
  | thinking (t : String)
  | toolCall (id : String) (name : String) (args : String)
  | other (ty : String)
deriving DecidableEq, Repr

/-- A message of the sync's `messages` array, by role. -/
inductive SyncMessage : Type
  | user (content : UserContent)
  | assistant (content : Option (List AssistContent))
  | toolResult (toolCallId : String) (firstContent : Option ContentPart)
      (isError : Option Bool)
  | otherRole (role : String)
deriving DecidableEq, Repr

/-- The fields of a `state_sync` message the client reads. -/
structure StateSyncData : Type where
  tabId : Option String
  messages : Option (List SyncMessage)
  streaming : Option Bool
deriving DecidableEq, Repr

/-- The client-state fields the sync path touches. -/
structure ClientUIState : Type where
  activeTabId : Option String
  items : List ConvItem
  streaming : Bool
  tabs : List (String × String)
deriving DecidableEq, Repr

/-- JS truthiness of an optional string field (`undefined` and `""` are falsy). -/
def truthyStr : Option String → Bool
  | none => false
  | some s => decide (s ≠ "")

/-- Text of a user message: plain string, joined `text` parts of an array,
or the stringified fallback. -/
def userText : UserContent → String
  | UserContent.str s => s
  | UserContent.parts l =>
      String.intercalate "\n"
        ((l.filter (fun c => decide (c.type = "text"))).map ContentPart.text)
  | UserContent.other shown => shown

/-- Blocks rebuilt from an assistant message's content array: text,
collapsed thinking, and not-yet-run tool cards; unknown types skipped. -/
def assistBlocks : Option (List AssistContent) → List Block
  | none => []
  | some l =>
      l.filterMap (fun c =>
        match c with
        | AssistContent.text t => some (Block.text t)
        | AssistContent.thinking t => some (Block.thinking t false)
        | AssistContent.toolCall id name args =>
            some (Block.tool id name args "" false false false)
        | AssistContent.other _ => none)

/-- Does this block match `b.type === "tool" && b.callId === callId`? -/
def isToolBlockFor (callId : String) : Block → Bool
  | Block.tool cid _ _ _ _ _ _ => decide (cid = callId)
  | _ => false

/-- Apply `mutate` to the first matching tool block of a block list
(`blocks.find(...)`), reporting whether one was found. -/
def updateFirstBlock (callId : String) (f : Block → Block) :
    List Block → Option (List Block)
  | [] => none
  | b :: rest =>
      if isToolBlockFor callId b then some (f b :: rest)
      else
        match updateFirstBlock callId f rest with
        | some rest1 => some (b :: rest1)
        | none => none

/-- `findToolBlock` scanning a reversed item list (most recent first):
mutate the matching tool block of the most recent assistant item holding
one, then stop. -/
def findToolBlockRev (callId : String) (f : Block → Block) :
    List ConvItem → Option (List ConvItem)
  | [] => none
  | item :: rest =>
    match item with
    | ConvItem.assistant blocks streaming =>
      match updateFirstBlock callId f blocks with
      | some blocks1 => some (ConvItem.assistant blocks1 streaming :: rest)
      | none => (findToolBlockRev callId f rest).map (fun r => item :: r)
    | ConvItem.user t => (findToolBlockRev callId f rest).map (fun r => ConvItem.user t :: r)

/-- `findToolBlock(callId, mutate)`: walk `state.items` from the end. -/
def findToolBlock (items : List ConvItem) (callId : String) (f : Block → Block) :
    List ConvItem :=
  match findToolBlockRev callId f items.reverse with
  | some r => r.reverse
  | none => items

/-- The mutation a `toolResult` sync message applies to its tool block. -/
def mutateToolBlock (text : String) (isErr : Bool) : Block → Block
  | Block.tool cid name args _ _ _ exp =>
      Block.tool cid name args text isErr false (if isErr then true else exp)
  | b => b

/-- One message of the sync's array folded into the rebuilt item list. -/
def applySyncMessage (items : List ConvItem) : SyncMessage → List ConvItem
  | SyncMessage.user c => items ++ [ConvItem.user (userText c)]
  | SyncMessage.assistant c => items ++ [ConvItem.assistant (assistBlocks c) false]
  | SyncMessage.toolResult callId fc isErr =>
      let text :=
        match fc with
        | some p => if p.type = "text" then p.text else ""
        | none => ""
      findToolBlock items callId (mutateToolBlock text (isErr.getD false))
  | SyncMessage.otherRole _ => items

/-- The conversation rebuilt by `handleStateSync` from the sync's messages. -/
def buildItems : Option (List SyncMessage) → List ConvItem
  | none => []
  | some msgs => msgs.foldl applySyncMessage []

/-- `handleStateSync(data)` from `src/main.ts`: ignore the sync when its
(nonempty) `tabId` differs from `state.activeTabId`, else rebuild the
conversation and streaming flag from the sync. -/
def handleStateSync (st : ClientUIState) (data : StateSyncData) : ClientUIState :=
  if truthyStr data.tabId && decide (data.tabId ≠ st.activeTabId) then st
  else
    { st with
        items := buildItems data.messages,
        streaming := data.streaming.getD false }

/-- The client-to-server events of `handleServerEvent` this development
models. -/
inductive ClientEvent : Type
  | stateSync (data : StateSyncData)
  | tabsUpdate (tabs : List (String × String))
deriving DecidableEq, Repr

/-- The `state_sync` and `tabs_update` cases of `handleServerEvent`: a
`state_sync` first overwrites `state.activeTabId` with the sync's `tabId`
(when present — the server may have redirected this client) and then runs
`handleStateSync`; a `tabs_update` stores the list and defaults the active
tab to the first entry when none is set. -/
def handleServerEvent (st : ClientUIState) : ClientEvent → ClientUIState
  | ClientEvent.stateSync data =>
      let st1 := if truthyStr data.tabId then { st with activeTabId := data.tabId } else st
      handleStateSync st1 data
  | ClientEvent.tabsUpdate tabs =>
      let st1 := { st with tabs := tabs }
      if truthyStr st1.activeTabId = false ∧ tabs ≠ [] then
        { st1 with activeTabId := (tabs.head?).map Prod.fst }
      else st1

/-!
Well-formedness of reachable server states, and basic lemmas about the
association-list embedding of JS `Map`s.
-/

/-- Invariant of every reachable server state: the map's key sequence is
exactly the creation order (so key set = order set and the registry sizes
agree), tab ids are unique, every entry's `tabId` field equals its key, and
socket identities are unique. -/
structure WF (st : ServerState) : Prop where
  keys_eq : st.tabs.map Prod.fst = st.tabOrder
  nodup : st.tabOrder.Nodup
  entries_named : ∀ p ∈ st.tabs, (p.2).tabId = p.1
  client_ids_nodup : (st.clients.map Client.cid).Nodup

@[simp] theorem alookup_nil {α β : Type} [DecidableEq α] (k : α) :
    alookup ([] : List (α × β)) k = none := rfl

@[simp] theorem alookup_cons {α β : Type} [DecidableEq α] (a : α) (b : β)
    (rest : List (α × β)) (k : α) :
    alookup ((a, b) :: rest) k = if a = k then some b else alookup rest k := rfl

@[simp] theorem aset_nil {α β : Type} [DecidableEq α] (k : α) (v : β) :
    aset ([] : List (α × β)) k v = [(k, v)] := rfl

@[simp] theorem aset_cons {α β : Type} [DecidableEq α] (a : α) (b : β)
    (rest : List (α × β)) (k : α) (v : β) :
    aset ((a, b) :: rest) k v =
      if a = k then (k, v) :: rest else (a, b) :: aset rest k v := rfl

theorem alookup_mem {α β : Type} [DecidableEq α] {l : List (α × β)} {k : α} {v : β}
    (h : alookup l k = some v) : (k, v) ∈ l := by
  induction l with
  | nil => simp at h
  | cons p rest ih =>
    obtain ⟨a, b⟩ := p
    by_cases hk : a = k
    · subst hk
      simp at h
      simp [h]
    · simp [hk] at h
      exact List.mem_cons_of_mem _ (ih h)

theorem alookup_isSome_iff {α β : Type} [DecidableEq α] (l : List (α × β)) (k : α) :
    (alookup l k).isSome ↔ k ∈ l.map Prod.fst := by
  induction l with
  | nil => simp
  | cons p rest ih =>
    obtain ⟨a, b⟩ := p
    by_cases hk : a = k
    · subst hk; simp
    · simp [hk, ih, Ne.symm hk]

@[simp] theorem alookup_aset_self {α β : Type} [DecidableEq α]
    (l : List (α × β)) (k : α) (v : β) : alookup (aset l k v) k = some v := by
  induction l with
  | nil => simp
  | cons p rest ih =>
    obtain ⟨a, b⟩ := p
    by_cases hk : a = k <;> simp [hk, ih]

@[simp] theorem aerase_nil {α β : Type} [DecidableEq α] (k : α) :
    aerase ([] : List (α × β)) k = [] := rfl

@[simp] theorem aerase_cons {α β : Type} [DecidableEq α] (a : α) (b : β)
    (rest : List (α × β)) (k : α) :
    aerase ((a, b) :: rest) k =
      if a = k then aerase rest k else (a, b) :: aerase rest k := by
  by_cases h : a = k <;> simp [aerase, List.filter_cons, h]

theorem alookup_aset_ne {α β : Type} [DecidableEq α]
    (l : List (α × β)) (k k' : α) (v : β) (h : k' ≠ k) :
    alookup (aset l k v) k' = alookup l k' := by
  induction l with
  | nil =>
    have hne : ¬ k = k' := fun he => h he.symm
    simp [hne]
  | cons p rest ih =>
    obtain ⟨a, b⟩ := p
    by_cases hk : a = k
    · subst hk
      have hne : ¬ a = k' := fun he => h he.symm
      simp [hne]
    · by_cases hk' : a = k' <;> simp [hk, hk', h, ih]

theorem alookup_aerase_ne {α β : Type} [DecidableEq α]
    (l : List (α × β)) (k k' : α) (h : k' ≠ k) :
    alookup (aerase l k) k' = alookup l k' := by
  induction l with
  | nil => simp
  | cons p rest ih =>
    obtain ⟨a, b⟩ := p
    by_cases hk : a = k
    · subst hk
      have hne : ¬ a = k' := fun he => h he.symm
      simp [hne, ih]
    · by_cases hk' : a = k' <;> simp [hk, hk', h, ih]

@[simp] theorem alookup_aerase_self {α β : Type} [DecidableEq α]
    (l : List (α × β)) (k : α) : alookup (aerase l k) k = none := by
  induction l with
  | nil => simp
  | cons p rest ih =>
    obtain ⟨a, b⟩ := p
    by_cases hk : a = k <;> simp [hk, ih]

theorem aerase_map_fst {α β : Type} [DecidableEq α] (l : List (α × β)) (k : α) :
    (aerase l k).map Prod.fst = (l.map Prod.fst).filter (fun x => decide (x ≠ k)) := by
  induction l with
  | nil => simp
  | cons p rest ih =>
    obtain ⟨a, b⟩ := p
    by_cases hk : a = k <;> simp [List.filter_cons, hk, ih]

theorem aerase_length_lt {α β : Type} [DecidableEq α] (l : List (α × β)) (k : α)
    (h : k ∈ l.map Prod.fst) : (aerase l k).length < l.length := by
  have := aerase_map_fst l k
  have hlen : (aerase l k).length = ((l.map Prod.fst).filter (fun x => decide (x ≠ k))).length := by
    calc (aerase l k).length = ((aerase l k).map Prod.fst).length := by simp
    _ = _ := by rw [this]
  rw [hlen]
  calc ((l.map Prod.fst).filter (fun x => decide (x ≠ k))).length
      < (l.map Prod.fst).length := by
        apply List.length_filter_lt_length_iff_exists.mpr
        exact ⟨k, h, by simp⟩
    _ = l.length := by simp

theorem mem_broadcastAll {clients : List Client} {msg : OutMsg} {e : Effect} :
    e ∈ broadcastAll clients msg ↔
      ∃ c, c ∈ clients ∧ c.ready = ReadyState.OPEN ∧ e = Effect.send c.cid msg := by
  simp only [broadcastAll, List.mem_filterMap]
  constructor
  · rintro ⟨c, hc, hf⟩
    by_cases h : c.ready = ReadyState.OPEN
    · simp [h] at hf
      exact ⟨c, hc, h, hf.symm⟩
    · simp [h] at hf
  · rintro ⟨c, hc, h, rfl⟩
    exact ⟨c, hc, by simp [h]⟩

theorem mem_broadcastToTabViewers {clients : List Client} {bind : List (Nat × String)}
    {tabId : String} {msg : OutMsg} {e : Effect} :
    e ∈ broadcastToTabViewers clients bind tabId msg ↔
      ∃ c, c ∈ clients ∧ c.ready = ReadyState.OPEN ∧
        alookup bind c.cid = some tabId ∧ e = Effect.send c.cid msg := by
  simp only [broadcastToTabViewers, List.mem_filterMap]
  constructor
  · rintro ⟨c, hc, hf⟩
    by_cases h : c.ready = ReadyState.OPEN ∧ alookup bind c.cid = some tabId
    · simp only [if_pos h, Option.some.injEq] at hf
      exact ⟨c, hc, h.1, h.2, hf.symm⟩
    · simp [if_neg h] at hf
  · rintro ⟨c, hc, h1, h2, rfl⟩
    exact ⟨c, hc, by simp [h1, h2]⟩

/-- Claim C1: `broadcastToTabViewers(tabId, msg)` sends `msg` exactly to the
open connections whose entry in the client binding table equals `tabId`;
a connection bound to a different tab `t1 ≠ tabId`, or with no binding,
never receives an event forwarded for `tabId`. -/
theorem c1_broadcastToTabViewers_scoped (clients : List Client)
    (bind : List (Nat × String)) (tabId : String) (msg : OutMsg) :
    (∀ e, e ∈ broadcastToTabViewers clients bind tabId msg ↔
      ∃ c, c ∈ clients ∧ c.ready = ReadyState.OPEN ∧
        alookup bind c.cid = some tabId ∧ e = Effect.send c.cid msg) ∧
    (∀ cid t1, alookup bind cid = some t1 → t1 ≠ tabId →
      ∀ m, Effect.send cid m ∉ broadcastToTabViewers clients bind tabId msg) ∧
    (∀ cid, alookup bind cid = none →
      ∀ m, Effect.send cid m ∉ broadcastToTabViewers clients bind tabId msg) := by
  refine ⟨fun e => mem_broadcastToTabViewers, ?_, ?_⟩
  · intro cid t1 hb hne m hmem
    rcases mem_broadcastToTabViewers.mp hmem with ⟨c, hc, hopen, hbc, he⟩
    have h1 : cid = c.cid ∧ m = msg := by simpa using he
    rw [h1.1] at hb
    rw [hb] at hbc
    exact hne (by simpa using hbc)
  · intro cid hb m hmem
    rcases mem_broadcastToTabViewers.mp hmem with ⟨c, hc, hopen, hbc, he⟩
    have h1 : cid = c.cid ∧ m = msg := by simpa using he
    rw [h1.1] at hb
    simp [hb] at hbc

/-- Witness for C1: a concrete open connection bound to tab T1 is not a
recipient of an event broadcast for tab T2. -/
theorem c1_broadcastToTabViewers_scoped_witness :
    Effect.send 0 (OutMsg.sessionEvent "ev") ∉
      broadcastToTabViewers [⟨0, ReadyState.OPEN⟩] [(0, "T1")] "T2"
        (OutMsg.sessionEvent "ev") :=
  (c1_broadcastToTabViewers_scoped [⟨0, ReadyState.OPEN⟩] [(0, "T1")] "T2"
    (OutMsg.sessionEvent "ev")).2.1 0 "T1" (by decide) (by decide) _

/-- Claim C2: when the registry holds exactly one tab, `closeTab` on that
tab is a no-op — the state (order, mapping, the tab's session) is returned
unchanged, no disposal effect is produced, and the returned replacement id
is the tab's own identifier. -/
theorem c2_closeTab_sole_tab_noop (st : ServerState) (tid : String) (e : TabEntry)
    (h : st.tabs = [(tid, e)]) :
    closeTab st tid = (st, [], some tid) := by
  simp [closeTab, h]

/-- Witness for C2 at a concrete one-tab registry. -/
theorem c2_closeTab_sole_tab_noop_witness :
    closeTab
      { tabOrder := ["A"],
        tabs := [("A", ⟨"A", "Session 1", ⟨"s1", [], false, none⟩⟩)],
        clients := [⟨0, ReadyState.OPEN⟩], clientActiveTab := [(0, "A")],
        tabCounter := 1, pendingIds := [] } "A"
      = ({ tabOrder := ["A"],
           tabs := [("A", ⟨"A", "Session 1", ⟨"s1", [], false, none⟩⟩)],
           clients := [⟨0, ReadyState.OPEN⟩], clientActiveTab := [(0, "A")],
           tabCounter := 1, pendingIds := [] }, [], some "A") :=
  c2_closeTab_sole_tab_noop _ "A" ⟨"A", "Session 1", ⟨"s1", [], false, none⟩⟩ rfl

/-- Claim C7: when the runtime construction fails during `createTab`, the
fresh tab identifier is never inserted into the registry's order or mapping
(only the name counter has advanced), and the `new_session` handler catches
the failure and sends nothing to any connection. -/
theorem c7_createTab_failure_no_registration (st : ServerState) (ws : Nat)
    (freshId : String) (err : String) (nameArg sessionPath storedName : Option String) :
    (createTab st freshId (Except.error err) nameArg sessionPath storedName
        = ({ st with tabCounter := st.tabCounter + 1 }, Except.error err)) ∧
    ((createTab st freshId (Except.error err) nameArg sessionPath storedName).1.tabs
        = st.tabs) ∧
    ((createTab st freshId (Except.error err) nameArg sessionPath storedName).1.tabOrder
        = st.tabOrder) ∧
    (handleNewSession st ws freshId (Except.error err)
        = ({ st with tabCounter := st.tabCounter + 1 }, [])) :=
  ⟨rfl, rfl, rfl, rfl⟩

/-- Claim C8: calling `createDialogPromise` with the cancellation signal
already aborted resolves immediately to the default outcome, registers no
pending entry, and broadcasts no `extension_ui_request`. -/
theorem c8_createDialogPromise_aborted_signal {T : Type} (clients : List Client)
    (pending : List String) (timeout : Option Nat) (freshId : String)
    (defaultValue : T) (request : String) :
    createDialogPromise clients pending true true timeout freshId defaultValue request
      = { immediate := some defaultValue, pending := pending, effects := [],
          dialog := none } := rfl

theorem dialogStep_settled {R T : Type} (parseResponse : R → T) (defaultValue : T)
    (s : DialogState T) (hp : s.pendingEntry = false) (ht : s.timerArmed = false)
    (hl : s.listenerArmed = false) (e : DialogEvent R) :
    dialogStep parseResponse defaultValue s e = s := by
  cases e <;> simp [dialogStep, hp, ht, hl]

theorem runDialog_settled {R T : Type} (parseResponse : R → T) (defaultValue : T)
    (s : DialogState T) (hp : s.pendingEntry = false) (ht : s.timerArmed = false)
    (hl : s.listenerArmed = false) (evs : List (DialogEvent R)) :
    runDialog parseResponse defaultValue s evs = s := by
  induction evs with
  | nil => rfl
  | cons e rest ih =>
    show runDialog parseResponse defaultValue
      (dialogStep parseResponse defaultValue s e) rest = s
    rw [dialogStep_settled parseResponse defaultValue s hp ht hl e]
    exact ih

theorem dialogStep_armed_resolves {R T : Type} (parseResponse : R → T)
    (defaultValue : T) (s : DialogState T) (hres : s.result = none)
    (e : DialogEvent R) (harmed : armedEvent s e = true) :
    dialogStep parseResponse defaultValue s e =
      { pendingEntry := false, timerArmed := false, listenerArmed := false,
        result := some (eventOutcome parseResponse defaultValue e) } := by
  cases e <;>
    simp [armedEvent] at harmed <;>
    simp [dialogStep, harmed, resolveOnce, hres, eventOutcome]

/-- Claim C4: a pending correlated request registered by
`createDialogPromise` (signal not yet aborted) resolves exactly once.
Whichever of a matching reply, the timer firing, or the abort signal
arrives first while its source is still armed settles the promise to that
source's outcome and clears the timer, the abort listener and the pending
entry; every later event in the sequence — duplicate reply, late timer,
late abort — leaves the state untouched. -/
theorem c4_pending_request_resolves_once {R T : Type} (parseResponse : R → T)
    (clients : List Client) (pending : List String) (hasSignal : Bool)
    (timeout : Option Nat) (freshId : String) (defaultValue : T) (request : String)
    (s0 : DialogState T)
    (hs0 : (createDialogPromise clients pending hasSignal false timeout freshId
        defaultValue request).dialog = some s0)
    (e : DialogEvent R) (later : List (DialogEvent R))
    (harmed : armedEvent s0 e = true) :
    runDialog parseResponse defaultValue s0 (e :: later)
        = dialogStep parseResponse defaultValue s0 e ∧
    dialogStep parseResponse defaultValue s0 e
        = { pendingEntry := false, timerArmed := false, listenerArmed := false,
            result := some (eventOutcome parseResponse defaultValue e) } := by
  have hres : s0.result = none := by
    simp [createDialogPromise] at hs0
    rw [← hs0]
  have hstep := dialogStep_armed_resolves parseResponse defaultValue s0 hres e harmed
  constructor
  · show runDialog parseResponse defaultValue
      (dialogStep parseResponse defaultValue s0 e) later
        = dialogStep parseResponse defaultValue s0 e
    rw [hstep]
    exact runDialog_settled parseResponse defaultValue _ rfl rfl rfl later
  · exact hstep

/-- Witness for C4: with a timeout configured and an abort signal attached,
the timer fires first and settles the request to the default outcome; a
duplicate reply and a late abort that follow change nothing. -/
theorem c4_pending_request_resolves_once_witness :
    runDialog (fun (_ : String) => true) false ⟨true, true, true, none⟩
        [DialogEvent.timerFire, DialogEvent.reply "late", DialogEvent.abortFire]
      = dialogStep (fun (_ : String) => true) false ⟨true, true, true, none⟩
          DialogEvent.timerFire ∧
    dialogStep (fun (_ : String) => true) false ⟨true, true, true, none⟩
        DialogEvent.timerFire
      = { pendingEntry := false, timerArmed := false, listenerArmed := false,
          result := some false } :=
  c4_pending_request_resolves_once (fun (_ : String) => true) [] [] true (some 50)
    "rid" false "req" ⟨true, true, true, none⟩ rfl DialogEvent.timerFire
    [DialogEvent.reply "late", DialogEvent.abortFire] rfl

/-- Claim C10: an `open_session` whose saved session is already open in a
tab creates no tab and leaves the registry untouched; the requesting
connection is rebound to the existing tab and unicast a `state_sync` for
it.  (So the handler never produces a second tab for an already-open
persisted session identifier.) -/
theorem c10_openSession_already_open (st : ServerState) (ws : Nat)
    (sessionPath : String) (allSessions : List SessionInfo) (freshId : String)
    (mkSession : Except String AgentSession) (storedName : Option String)
    (info : SessionInfo) (alreadyOpen : TabEntry)
    (hpath : sessionPath ≠ "")
    (hfind : allSessions.find? (fun (s : SessionInfo) => decide (s.path = sessionPath))
        = some info)
    (hopen : (st.tabs.map Prod.snd).find?
        (fun (t : TabEntry) => decide (t.session.sessionId = info.id))
        = some alreadyOpen) :
    handleOpenSession st ws sessionPath allSessions freshId mkSession storedName
      = ({ st with clientActiveTab := aset st.clientActiveTab ws alreadyOpen.tabId },
         [Effect.send ws (stateSyncMsg alreadyOpen)]) ∧
    (handleOpenSession st ws sessionPath allSessions freshId mkSession storedName).1.tabs
      = st.tabs ∧
    (handleOpenSession st ws sessionPath allSessions freshId mkSession storedName).1.tabOrder
      = st.tabOrder ∧
    alookup (handleOpenSession st ws sessionPath allSessions freshId
        mkSession storedName).1.clientActiveTab ws = some alreadyOpen.tabId := by
  have hmain :
      handleOpenSession st ws sessionPath allSessions freshId mkSession storedName
        = ({ st with clientActiveTab := aset st.clientActiveTab ws alreadyOpen.tabId },
           [Effect.send ws (stateSyncMsg alreadyOpen)]) := by
    simp [handleOpenSession, hpath, hfind, hopen, sendStateSync]
  refine ⟨hmain, ?_, ?_, ?_⟩ <;> rw [hmain]
  exact alookup_aset_self st.clientActiveTab ws alreadyOpen.tabId

/-- Witness for C10: a concrete two-tab registry where the requested path's
session is open in tab B; the requester is rebound to B and synced. -/
theorem c10_openSession_already_open_witness :
    handleOpenSession
      { tabOrder := ["A", "B"],
        tabs := [("A", ⟨"A", "a", ⟨"s1", [], false, none⟩⟩),
                 ("B", ⟨"B", "b", ⟨"s2", [], false, none⟩⟩)],
        clients := [⟨0, ReadyState.OPEN⟩], clientActiveTab := [(0, "A")],
        tabCounter := 2, pendingIds := [] }
      0 "/p2" [⟨"s2", "/p2", none, "/cwd", 0, 0, 0, "m"⟩] "FRESH"
      (Except.error "unused") none
      = ({ tabOrder := ["A", "B"],
           tabs := [("A", ⟨"A", "a", ⟨"s1", [], false, none⟩⟩),
                    ("B", ⟨"B", "b", ⟨"s2", [], false, none⟩⟩)],
           clients := [⟨0, ReadyState.OPEN⟩], clientActiveTab := [(0, "B")],
           tabCounter := 2, pendingIds := [] },
         [Effect.send 0 (stateSyncMsg ⟨"B", "b", ⟨"s2", [], false, none⟩⟩)]) :=
  (c10_openSession_already_open _ 0 "/p2" _ "FRESH" (Except.error "unused") none
    ⟨"s2", "/p2", none, "/cwd", 0, 0, 0, "m"⟩ ⟨"B", "b", ⟨"s2", [], false, none⟩⟩
    (by decide) (by decide) (by decide)).1

/-- Counterexample to claim C5 as stated: a `state_sync` received for tab
"B" while the client views tab "A" is not discarded — the handler adopts
"B" as the active tab and replaces the conversation with the sync's
contents. -/
theorem c5_counterexample :
    (handleServerEvent
        { activeTabId := some "A", items := [ConvItem.user "hi"],
          streaming := false, tabs := [] }
        (ClientEvent.stateSync
          { tabId := some "B", messages := some [], streaming := some false })).activeTabId
      = some "B" ∧
    (handleServerEvent
        { activeTabId := some "A", items := [ConvItem.user "hi"],
          streaming := false, tabs := [] }
        (ClientEvent.stateSync
          { tabId := some "B", messages := some [], streaming := some false })).items
      = [] ∧
    ([ConvItem.user "hi"] : List ConvItem) ≠ [] := by decide

/-- Claim C5 (amended): a `state_sync` carrying a nonempty `tabId` is never
discarded on the socket path — `handleServerEvent` first adopts that
`tabId` as the active tab (server redirects win) and then applies the sync;
the stale-sync guard inside `handleStateSync` drops a mismatched sync only
when that function is entered without the adoption step. -/
theorem c5_state_sync_last_sync_wins (st : ClientUIState) (data : StateSyncData)
    (htruthy : truthyStr data.tabId = true) :
    handleServerEvent st (ClientEvent.stateSync data)
      = { st with
            activeTabId := data.tabId,
            items := buildItems data.messages,
            streaming := data.streaming.getD false } ∧
    (data.tabId ≠ st.activeTabId → handleStateSync st data = st) := by
  constructor
  · simp [handleServerEvent, handleStateSync, htruthy]
  · intro hne
    simp [handleStateSync, htruthy, hne]

/-- Witness for the amended C5: concrete mismatched sync — adopted and
applied by `handleServerEvent`, discarded by a bare `handleStateSync`. -/
theorem c5_state_sync_last_sync_wins_witness :
    (handleServerEvent
        { activeTabId := some "A", items := [ConvItem.user "hi"],
          streaming := false, tabs := [] }
        (ClientEvent.stateSync
          { tabId := some "B", messages := some [], streaming := some false })
      = { activeTabId := some "B", items := [], streaming := false, tabs := [] }) ∧
    (handleStateSync
        { activeTabId := some "A", items := [ConvItem.user "hi"],
          streaming := false, tabs := [] }
        { tabId := some "B", messages := some [], streaming := some false }
      = { activeTabId := some "A", items := [ConvItem.user "hi"],
          streaming := false, tabs := [] }) := by
  have h := c5_state_sync_last_sync_wins
    { activeTabId := some "A", items := [ConvItem.user "hi"],
      streaming := false, tabs := [] }
    { tabId := some "B", messages := some [], streaming := some false }
    (by decide)
  exact ⟨h.1, h.2 (by decide)⟩

theorem jsIndexOf_append_cons {α : Type} [DecidableEq α] (pre post : List α)
    (x : α) (hx : x ∉ pre) :
    jsIndexOf (pre ++ x :: post) x = pre.length := by
  induction pre with
  | nil => simp [jsIndexOf]
  | cons a l ih =>
    have ha : ¬ a = x := fun h => hx (by rw [← h]; exact List.mem_cons_self a l)
    have hih := ih (fun hm => hx (List.mem_cons_of_mem a hm))
    have hnn : jsIndexOf (l ++ x :: post) x ≠ -1 := by
      rw [hih]
      omega
    show (if a = x then 0 else
      if jsIndexOf (l ++ x :: post) x = -1 then -1
      else jsIndexOf (l ++ x :: post) x + 1) = ((a :: l).length : Int)
    rw [if_neg ha, if_neg hnn, hih, List.length_cons]
    omega

theorem closeTab_eq (st : ServerState) (pre post : List String) (target : String)
    (hWF : WF st) (horder : st.tabOrder = pre ++ target :: post)
    (hsz : 2 ≤ st.tabOrder.length) :
    closeTab st target =
      ({ st with tabs := aerase st.tabs target, tabOrder := pre ++ post },
        [Effect.dispose target],
        ((pre ++ post).get? (max 0 ((pre.length : Int) - 1)).toNat).orElse
          (fun _ => (pre ++ post).get? 0)) := by
  have htpre : target ∉ pre := by
    have := hWF.nodup
    rw [horder] at this
    exact fun hm => (List.disjoint_of_nodup_append this) hm (List.mem_cons_self _ _)
  have htmem : target ∈ st.tabOrder := by
    rw [horder]; exact List.mem_append_right _ (List.mem_cons_self _ _)
  have hkeys : ∀ id, id ∈ st.tabOrder → (alookup st.tabs id).isSome := by
    intro id hid
    rw [alookup_isSome_iff, hWF.keys_eq]
    exact hid
  obtain ⟨e, he⟩ := Option.isSome_iff_exists.mp (hkeys target htmem)
  have hlen : st.tabs.length = st.tabOrder.length := by
    rw [← hWF.keys_eq, List.length_map]
  have hguard : ¬ st.tabs.length ≤ 1 := by omega
  have hidx : jsIndexOf st.tabOrder target = pre.length := by
    rw [horder]; exact jsIndexOf_append_cons pre post target htpre
  have h1 : pre.filter
      (fun id => decide (id ≠ target) && (alookup st.tabs id).isSome) = pre := by
    apply List.filter_eq_self.mpr
    intro a ha
    have hne : a ≠ target := fun h => htpre (h ▸ ha)
    have hs : (alookup st.tabs a).isSome :=
      hkeys a (by rw [horder]; exact List.mem_append_left _ ha)
    simp [hne, hs]
  have h2 : post.filter
      (fun id => decide (id ≠ target) && (alookup st.tabs id).isSome) = post := by
    apply List.filter_eq_self.mpr
    intro a ha
    have hnd := hWF.nodup
    rw [horder] at hnd
    have hne : a ≠ target := by
      intro h
      subst h
      exact (List.nodup_cons.mp (hnd.sublist (List.sublist_append_right pre _))).1 ha
    have hs : (alookup st.tabs a).isSome :=
      hkeys a (by
        rw [horder]
        exact List.mem_append_right _ (List.mem_cons_of_mem _ ha))
    simp [hne, hs]
  have hcond : (decide (target ≠ target) && (alookup st.tabs target).isSome) = false := by
    simp
  have hfilter : st.tabOrder.filter
      (fun id => decide (id ≠ target) && (alookup st.tabs id).isSome) = pre ++ post := by
    rw [horder, List.filter_append, List.filter_cons, h1, h2, hcond]
    simp
  have herase : st.tabOrder.erase target = pre ++ post := by
    rw [horder, List.erase_append_right _ htpre, List.erase_cons_head]
  simp only [closeTab, he, hguard, if_false, hidx, hfilter, herase]

theorem closeTab_rep_pred (q post : List String) (p : String) :
    (((q ++ [p]) ++ post).get? (max 0 (((q ++ [p]).length : Int) - 1)).toNat).orElse
      (fun _ => ((q ++ [p]) ++ post).get? 0) = some p := by
  have hlen : (max 0 (((q ++ [p]).length : Int) - 1)).toNat = q.length := by
    simp only [List.length_append, List.length_singleton]
    omega
  have hget : ((q ++ [p]) ++ post).get? q.length = some p := by
    rw [List.append_assoc, List.get?_append_right (le_refl q.length)]
    simp
  rw [hlen, hget]
  rfl

theorem closeTab_rep_head (b : String) (post : List String) :
    ((([] : List String) ++ b :: post).get?
        (max 0 ((([] : List String).length : Int) - 1)).toNat).orElse
      (fun _ => (([] : List String) ++ b :: post).get? 0) = some b := by
  have h0 : (max 0 ((([] : List String).length : Int) - 1)).toNat = 0 := by
    simp
  rw [h0]
  rfl

/-- Claim C3: closing an existing tab of a registry with at least two tabs
returns as replacement the tab immediately before the closed one in
creation order when one exists (order `q ++ [p, target] ++ post` yields
`p`), else the first remaining tab (order `target :: b :: post` yields
`b`).  In particular with order [A,B,C] closing B yields A, and with order
[A,B] closing A yields B. -/
theorem c3_closeTab_replacement (st : ServerState) (target : String) :
    (∀ q p post, WF st → st.tabOrder = q ++ p :: target :: post →
      (closeTab st target).2.2 = some p) ∧
    (∀ b post, WF st → st.tabOrder = target :: b :: post →
      (closeTab st target).2.2 = some b) := by
  constructor
  · intro q p post hWF horder
    have horder2 : st.tabOrder = (q ++ [p]) ++ target :: post := by
      rw [horder]; simp
    have hsz : 2 ≤ st.tabOrder.length := by
      rw [horder]
      simp only [List.length_append, List.length_cons]
      omega
    rw [closeTab_eq st (q ++ [p]) post target hWF horder2 hsz]
    exact closeTab_rep_pred q post p
  · intro b post hWF horder
    have horder2 : st.tabOrder = [] ++ target :: (b :: post) := by
      simpa using horder
    have hsz : 2 ≤ st.tabOrder.length := by
      rw [horder]
      simp only [List.length_cons]
      omega
    rw [closeTab_eq st [] (b :: post) target hWF horder2 hsz]
    exact closeTab_rep_head b post

/-- Witness for C3: with creation order [A,B,C] closing B returns A, and
with creation order [A,B] closing A returns B. -/
theorem c3_closeTab_replacement_witness :
    (closeTab
      { tabOrder := ["A", "B", "C"],
        tabs := [("A", ⟨"A", "a", ⟨"s1", [], false, none⟩⟩),
                 ("B", ⟨"B", "b", ⟨"s2", [], false, none⟩⟩),
                 ("C", ⟨"C", "c", ⟨"s3", [], false, none⟩⟩)],
        clients := [], clientActiveTab := [], tabCounter := 3,
        pendingIds := [] } "B").2.2 = some "A" ∧
    (closeTab
      { tabOrder := ["A", "B"],
        tabs := [("A", ⟨"A", "a", ⟨"s1", [], false, none⟩⟩),
                 ("B", ⟨"B", "b", ⟨"s2", [], false, none⟩⟩)],
        clients := [], clientActiveTab := [], tabCounter := 2,
        pendingIds := [] } "A").2.2 = some "B" :=
  ⟨(c3_closeTab_replacement _ "B").1 [] "A" ["C"]
      ⟨by decide, by decide, by decide, by decide⟩ (by decide),
   (c3_closeTab_replacement _ "A").2 "B" []
      ⟨by decide, by decide, by decide, by decide⟩ (by decide)⟩

theorem redirectClients_not_bound (tabs : List (String × TabEntry))
    (tabOrder : List String) (clients : List Client) (target : String)
    (rid : Option String) (bind : List (Nat × String)) (d : Nat)
    (hd : alookup bind d ≠ some target) :
    alookup (redirectClients tabs tabOrder clients target rid bind).1 d
        = alookup bind d ∧
    ∀ m, Effect.send d m ∉ (redirectClients tabs tabOrder clients target rid bind).2 := by
  induction clients generalizing bind with
  | nil => simp [redirectClients]
  | cons c rest ih =>
    by_cases hg : c.ready = ReadyState.OPEN ∧ alookup bind c.cid = some target
    · have hcd : c.cid ≠ d := fun h => hd (h ▸ hg.2)
      cases hfb : redirectFallback tabs tabOrder rid with
      | none =>
        simp only [redirectClients, if_pos hg, hfb]
        exact ih bind hd
      | some fb =>
        have hbind1 : alookup (aset bind c.cid fb.tabId) d = alookup bind d :=
          alookup_aset_ne bind c.cid d fb.tabId (Ne.symm hcd)
        have ih1 := ih (aset bind c.cid fb.tabId) (by rw [hbind1]; exact hd)
        simp only [redirectClients, if_pos hg, hfb]
        constructor
        · rw [ih1.1, hbind1]
        · intro m hm
          rcases List.mem_cons.mp hm with heq | hmem
          · injection heq with h1 _
            exact hcd h1.symm
          · exact ih1.2 m hmem
    · simp only [redirectClients, if_neg hg]
      exact ih bind hd

theorem redirectClients_bound (tabs : List (String × TabEntry))
    (tabOrder : List String) (clients : List Client) (target : String)
    (rid : Option String) (fb : TabEntry)
    (hfb : redirectFallback tabs tabOrder rid = some fb)
    (hfbne : fb.tabId ≠ target) :
    ∀ bind (c : Client), c ∈ clients → (clients.map Client.cid).Nodup →
      c.ready = ReadyState.OPEN → alookup bind c.cid = some target →
      alookup (redirectClients tabs tabOrder clients target rid bind).1 c.cid
          = some fb.tabId ∧
      Effect.send c.cid (stateSyncMsg fb)
          ∈ (redirectClients tabs tabOrder clients target rid bind).2 := by
  induction clients with
  | nil =>
    intro bind c hc _ _ _
    simp at hc
  | cons a rest ih =>
    intro bind c hc hnd hopen hbound
    have hndtail : (rest.map Client.cid).Nodup :=
      (List.nodup_cons.mp (by simpa using hnd)).2
    rcases List.mem_cons.mp hc with rfl | hcr
    · have hg : c.ready = ReadyState.OPEN ∧ alookup bind c.cid = some target :=
        ⟨hopen, hbound⟩
      have hset : alookup (aset bind c.cid fb.tabId) c.cid = some fb.tabId :=
        alookup_aset_self _ _ _
      have hne : alookup (aset bind c.cid fb.tabId) c.cid ≠ some target := by
        rw [hset]
        intro h
        injection h with h2
        exact hfbne h2
      have hrest := redirectClients_not_bound tabs tabOrder rest target rid
        (aset bind c.cid fb.tabId) c.cid hne
      simp only [redirectClients, if_pos hg, hfb]
      constructor
      · rw [hrest.1, hset]
      · exact List.mem_cons_self _ _
    · have hacid : ¬ a.cid = c.cid := by
        intro h
        have h1 : a.cid ∈ rest.map Client.cid := by
          rw [h]
          exact List.mem_map_of_mem Client.cid hcr
        exact (List.nodup_cons.mp (by simpa using hnd)).1 h1
      by_cases hg : a.ready = ReadyState.OPEN ∧ alookup bind a.cid = some target
      · have hbind1 : alookup (aset bind a.cid fb.tabId) c.cid = alookup bind c.cid :=
          alookup_aset_ne bind a.cid c.cid fb.tabId (fun h => hacid h.symm)
        have ihc := ih (aset bind a.cid fb.tabId) c hcr hndtail hopen
          (by rw [hbind1]; exact hbound)
        simp only [redirectClients, if_pos hg, hfb]
        exact ⟨ihc.1, List.mem_cons_of_mem _ ihc.2⟩
      · have ihc := ih bind c hcr hndtail hopen hbound
        simp only [redirectClients, if_neg hg]
        exact ihc

theorem closeTab_rep_exists (st : ServerState) (pre post : List String) (target : String)
    (hWF : WF st) (horder : st.tabOrder = pre ++ target :: post)
    (hsz : 2 ≤ st.tabOrder.length) :
    ∃ r, (closeTab st target).2.2 = some r ∧ r ∈ pre ++ post := by
  rcases List.eq_nil_or_concat pre with rfl | ⟨q, p, rfl⟩
  · cases post with
    | nil =>
      rw [horder] at hsz
      simp at hsz
    | cons b post1 =>
      refine ⟨b, ?_, by simp⟩
      rw [closeTab_eq st [] (b :: post1) target hWF horder hsz]
      exact closeTab_rep_head b post1
  · have horder2 : st.tabOrder = (q ++ [p]) ++ target :: post := by
      rw [horder, List.concat_eq_append]
    refine ⟨p, ?_, by simp⟩
    rw [closeTab_eq st (q ++ [p]) post target hWF horder2 hsz]
    exact closeTab_rep_pred q post p

/-- Claim C6: a `close_tab` naming an existing, non-sole tab broadcasts the
updated tab list to every open connection; every open connection bound to
the closed tab is rebound to the computed replacement `r` and unicast a
`state_sync` for the replacement's entry `fb`; a connection bound to any
other tab keeps its binding and receives no `state_sync` at all. -/
theorem c6_close_tab_rebind (st : ServerState) (pre post : List String) (target : String)
    (hWF : WF st) (horder : st.tabOrder = pre ++ target :: post)
    (hsz : 2 ≤ st.tabOrder.length) :
    ∃ r fb,
      (closeTab st target).2.2 = some r ∧
      alookup (aerase st.tabs target) r = some fb ∧
      fb.tabId = r ∧
      (∀ c ∈ st.clients, c.ready = ReadyState.OPEN →
        Effect.send c.cid (OutMsg.tabsUpdate (getTabsList (closeTab st target).1))
          ∈ (handleCloseTab st target).2) ∧
      (∀ c ∈ st.clients, c.ready = ReadyState.OPEN →
        alookup st.clientActiveTab c.cid = some target →
        alookup (handleCloseTab st target).1.clientActiveTab c.cid = some r ∧
        Effect.send c.cid (stateSyncMsg fb) ∈ (handleCloseTab st target).2) ∧
      (∀ d : Nat, alookup st.clientActiveTab d ≠ some target →
        alookup (handleCloseTab st target).1.clientActiveTab d
          = alookup st.clientActiveTab d ∧
        ∀ tid ms b mid sid,
          Effect.send d (OutMsg.stateSync tid ms b mid sid)
            ∉ (handleCloseTab st target).2) := by
  have hct := closeTab_eq st pre post target hWF horder hsz
  obtain ⟨r, hrep, hrmem⟩ := closeTab_rep_exists st pre post target hWF horder hsz
  have hnd : (pre ++ target :: post).Nodup := horder ▸ hWF.nodup
  have htpre : target ∉ pre := fun hm =>
    (List.disjoint_of_nodup_append hnd) hm (List.mem_cons_self _ _)
  have htpost : target ∉ post :=
    (List.nodup_cons.mp (hnd.sublist (List.sublist_append_right pre _))).1
  have hrne : r ≠ target := by
    intro h
    subst h
    rcases List.mem_append.mp hrmem with h | h
    · exact htpre h
    · exact htpost h
  have hkeys : ∀ id, id ∈ st.tabOrder → (alookup st.tabs id).isSome := by
    intro id hid
    rw [alookup_isSome_iff, hWF.keys_eq]
    exact hid
  have hrsome : (alookup st.tabs r).isSome := by
    apply hkeys
    rw [horder]
    rcases List.mem_append.mp hrmem with h | h
    · exact List.mem_append_left _ h
    · exact List.mem_append_right _ (List.mem_cons_of_mem _ h)
  obtain ⟨fb, hfb0⟩ := Option.isSome_iff_exists.mp hrsome
  have hfb : alookup (aerase st.tabs target) r = some fb := by
    rw [alookup_aerase_ne st.tabs target r hrne]
    exact hfb0
  have hfbid : fb.tabId = r := hWF.entries_named (r, fb) (alookup_mem hfb0)
  have hfbne : fb.tabId ≠ target := by
    rw [hfbid]
    exact hrne
  have hfallback :
      redirectFallback (aerase st.tabs target) (pre ++ post) (some r) = some fb := by
    simp [redirectFallback, hfb]
  have hguard1 : (alookup st.tabs target).isSome := by
    apply hkeys
    rw [horder]
    exact List.mem_append_right _ (List.mem_cons_self _ _)
  have hlen : st.tabs.length = st.tabOrder.length := by
    rw [← hWF.keys_eq, List.length_map]
  have hguard2 : ¬ st.tabs.length ≤ 1 := by omega
  have h1tabs : (closeTab st target).1.tabs = aerase st.tabs target := by rw [hct]
  have h1order : (closeTab st target).1.tabOrder = pre ++ post := by rw [hct]
  have h1cl : (closeTab st target).1.clients = st.clients := by rw [hct]
  have h1bind : (closeTab st target).1.clientActiveTab = st.clientActiveTab := by
    rw [hct]
  have h2eff : (closeTab st target).2.1 = [Effect.dispose target] := by rw [hct]
  have hflow : handleCloseTab st target =
      ({ (closeTab st target).1 with clientActiveTab :=
          (redirectClients (aerase st.tabs target) (pre ++ post) st.clients target
            (some r) st.clientActiveTab).1 },
        [Effect.dispose target]
          ++ broadcastAll st.clients (OutMsg.tabsUpdate (getTabsList (closeTab st target).1))
          ++ (redirectClients (aerase st.tabs target) (pre ++ post) st.clients target
              (some r) st.clientActiveTab).2) := by
    simp only [handleCloseTab, hguard1, hguard2, if_true, if_false, closeTabFlow,
      h1tabs, h1order, h1cl, h1bind, h2eff, hrep]
  refine ⟨r, fb, hrep, hfb, hfbid, ?_, ?_, ?_⟩
  · intro c hc hopen
    rw [hflow]
    have : Effect.send c.cid (OutMsg.tabsUpdate (getTabsList (closeTab st target).1))
        ∈ broadcastAll st.clients
          (OutMsg.tabsUpdate (getTabsList (closeTab st target).1)) :=
      mem_broadcastAll.mpr ⟨c, hc, hopen, rfl⟩
    simp only [List.mem_append, List.mem_cons]
    tauto
  · intro c hc hopen hbound
    have hb := redirectClients_bound (aerase st.tabs target) (pre ++ post) st.clients
      target (some r) fb hfallback hfbne st.clientActiveTab c hc
      hWF.client_ids_nodup hopen hbound
    rw [hflow]
    constructor
    · show alookup (redirectClients (aerase st.tabs target) (pre ++ post) st.clients
        target (some r) st.clientActiveTab).1 c.cid = some r
      rw [hb.1, hfbid]
    · simp only [List.mem_append, List.mem_cons]
      tauto
  · intro d hd
    have hnb := redirectClients_not_bound (aerase st.tabs target) (pre ++ post)
      st.clients target (some r) st.clientActiveTab d hd
    rw [hflow]
    constructor
    · exact hnb.1
    · intro tid ms b mid sid hmem
      simp only [List.mem_append, List.mem_singleton] at hmem
      rcases hmem with (h | h) | h
      · exact Effect.noConfusion h
      · rcases mem_broadcastAll.mp h with ⟨c, _, _, he⟩
        injection he with h1 h2
        exact OutMsg.noConfusion h2
      · exact hnb.2 _ h

/-- Witness for C6: two tabs [A,B], client 0 viewing B, client 1 viewing A;
closing B rebinds client 0 to A, sends it A's state_sync, broadcasts the
updated list, and leaves client 1 bound to A with no state_sync. -/
theorem c6_close_tab_rebind_witness :
    alookup (handleCloseTab
        { tabOrder := ["A", "B"],
          tabs := [("A", ⟨"A", "a", ⟨"s1", [], false, none⟩⟩),
                   ("B", ⟨"B", "b", ⟨"s2", [], false, none⟩⟩)],
          clients := [⟨0, ReadyState.OPEN⟩, ⟨1, ReadyState.OPEN⟩],
          clientActiveTab := [(0, "B"), (1, "A")],
          tabCounter := 2, pendingIds := [] } "B").1.clientActiveTab 0
      = some "A" ∧
    Effect.send 0 (stateSyncMsg ⟨"A", "a", ⟨"s1", [], false, none⟩⟩)
      ∈ (handleCloseTab
        { tabOrder := ["A", "B"],
          tabs := [("A", ⟨"A", "a", ⟨"s1", [], false, none⟩⟩),
                   ("B", ⟨"B", "b", ⟨"s2", [], false, none⟩⟩)],
          clients := [⟨0, ReadyState.OPEN⟩, ⟨1, ReadyState.OPEN⟩],
          clientActiveTab := [(0, "B"), (1, "A")],
          tabCounter := 2, pendingIds := [] } "B").2 := by
  obtain ⟨r, fb, hrep, hfb, hfbid, hbc, hbound, hother⟩ :=
    c6_close_tab_rebind
      { tabOrder := ["A", "B"],
        tabs := [("A", ⟨"A", "a", ⟨"s1", [], false, none⟩⟩),
                 ("B", ⟨"B", "b", ⟨"s2", [], false, none⟩⟩)],
        clients := [⟨0, ReadyState.OPEN⟩, ⟨1, ReadyState.OPEN⟩],
        clientActiveTab := [(0, "B"), (1, "A")],
        tabCounter := 2, pendingIds := [] }
      ["A"] [] "B" ⟨by decide, by decide, by decide, by decide⟩ rfl (by decide)
  have hval : (closeTab
      { tabOrder := ["A", "B"],
        tabs := [("A", ⟨"A", "a", ⟨"s1", [], false, none⟩⟩),
                 ("B", ⟨"B", "b", ⟨"s2", [], false, none⟩⟩)],
        clients := [⟨0, ReadyState.OPEN⟩, ⟨1, ReadyState.OPEN⟩],
        clientActiveTab := [(0, "B"), (1, "A")],
        tabCounter := 2, pendingIds := [] } "B").2.2 = some "A" := by decide
  have hr2 : r = "A" := Option.some.inj (hrep.symm.trans hval)
  subst hr2
  have hfbval : alookup (aerase
      ({ tabOrder := ["A", "B"],
         tabs := [("A", ⟨"A", "a", ⟨"s1", [], false, none⟩⟩),
                  ("B", ⟨"B", "b", ⟨"s2", [], false, none⟩⟩)],
         clients := [⟨0, ReadyState.OPEN⟩, ⟨1, ReadyState.OPEN⟩],
         clientActiveTab := [(0, "B"), (1, "A")],
         tabCounter := 2, pendingIds := [] } : ServerState).tabs "B") "A"
      = some (⟨"A", "a", ⟨"s1", [], false, none⟩⟩ : TabEntry) := by decide
  have hfb3 : fb = (⟨"A", "a", ⟨"s1", [], false, none⟩⟩ : TabEntry) :=
    Option.some.inj (hfb.symm.trans hfbval)
  subst hfb3
  have hb := hbound ⟨0, ReadyState.OPEN⟩ (by decide) rfl (by decide)
  exact ⟨hb.1, hb.2⟩

/-- Counterexample to claim C9 as stated: with a sole tab A open on the
session the path refers to, `delete_session` skips the close-tab flow
entirely (no disposal, registry unchanged) yet still deletes the file. -/
theorem c9_counterexample :
    ((({ tabOrder := ["A"],
         tabs := [("A", ⟨"A", "a", ⟨"s1", [], false, none⟩⟩)],
         clients := [⟨0, ReadyState.OPEN⟩], clientActiveTab := [(0, "A")],
         tabCounter := 1, pendingIds := [] } : ServerState).tabs.map Prod.snd).find?
        (fun (t : TabEntry) => decide (t.session.sessionId = "s1"))).isSome ∧
    handleDeleteSession
        { tabOrder := ["A"],
          tabs := [("A", ⟨"A", "a", ⟨"s1", [], false, none⟩⟩)],
          clients := [⟨0, ReadyState.OPEN⟩], clientActiveTab := [(0, "A")],
          tabCounter := 1, pendingIds := [] }
        0 "/p1" [⟨"s1", "/p1", none, "/cwd", 0, 0, 0, "m"⟩] []
      = ({ tabOrder := ["A"],
           tabs := [("A", ⟨"A", "a", ⟨"s1", [], false, none⟩⟩)],
           clients := [⟨0, ReadyState.OPEN⟩], clientActiveTab := [(0, "A")],
           tabCounter := 1, pendingIds := [] },
         [Effect.unlink "/p1", Effect.send 0 (OutMsg.sessionsList [])]) ∧
    (∀ e ∈ (handleDeleteSession
        { tabOrder := ["A"],
          tabs := [("A", ⟨"A", "a", ⟨"s1", [], false, none⟩⟩)],
          clients := [⟨0, ReadyState.OPEN⟩], clientActiveTab := [(0, "A")],
          tabCounter := 1, pendingIds := [] }
        0 "/p1" [⟨"s1", "/p1", none, "/cwd", 0, 0, 0, "m"⟩] []).2,
      e ≠ Effect.dispose "A") := by decide

/-- Claim C9 (amended): for a `delete_session` whose path refers to a
session open in a tab, provided more than one tab exists, the close-tab
flow for that tab runs first and the file unlink strictly follows it (with
the refreshed sessions list sent last); when the open tab is the sole
remaining tab the close-tab flow is skipped and the file is deleted
anyway. -/
theorem c9_delete_open_session_close_first (st : ServerState) (ws : Nat)
    (sessionPath : String) (allForDelete updatedSessions : List SessionInfo)
    (info : SessionInfo) (openTab : TabEntry)
    (hpath : sessionPath ≠ "")
    (hfind : allForDelete.find?
        (fun (s : SessionInfo) => decide (s.path = sessionPath)) = some info)
    (hopen : (st.tabs.map Prod.snd).find?
        (fun (t : TabEntry) => decide (t.session.sessionId = info.id)) = some openTab)
    (hsz : 1 < st.tabs.length) :
    handleDeleteSession st ws sessionPath allForDelete updatedSessions
      = ((closeTabFlow st openTab.tabId).1,
         (closeTabFlow st openTab.tabId).2
           ++ [Effect.unlink sessionPath]
           ++ [Effect.send ws (OutMsg.sessionsList (sortByModifiedDesc
                (updatedSessions.filter (fun (s : SessionInfo) =>
                  decide (¬ s.id ∈ (closeTabFlow st openTab.tabId).1.tabs.map
                    (fun (p : String × TabEntry) => p.2.session.sessionId))))))]) := by
  simp only [handleDeleteSession]
  rw [if_neg hpath, hfind]
  simp only [hopen]
  rw [if_pos hsz]

/-- Witness for the amended C9 at a concrete two-tab state: deleting the
session open in tab B runs the close flow and appends the unlink after. -/
theorem c9_delete_open_session_close_first_witness :
    handleDeleteSession
        { tabOrder := ["A", "B"],
          tabs := [("A", ⟨"A", "a", ⟨"s1", [], false, none⟩⟩),
                   ("B", ⟨"B", "b", ⟨"s2", [], false, none⟩⟩)],
          clients := [⟨0, ReadyState.OPEN⟩], clientActiveTab := [(0, "B")],
          tabCounter := 2, pendingIds := [] }
        0 "/p2" [⟨"s2", "/p2", none, "/cwd", 0, 0, 0, "m"⟩] []
      = ((closeTabFlow
            { tabOrder := ["A", "B"],
              tabs := [("A", ⟨"A", "a", ⟨"s1", [], false, none⟩⟩),
                       ("B", ⟨"B", "b", ⟨"s2", [], false, none⟩⟩)],
              clients := [⟨0, ReadyState.OPEN⟩], clientActiveTab := [(0, "B")],
              tabCounter := 2, pendingIds := [] } "B").1,
         (closeTabFlow
            { tabOrder := ["A", "B"],
              tabs := [("A", ⟨"A", "a", ⟨"s1", [], false, none⟩⟩),
                       ("B", ⟨"B", "b", ⟨"s2", [], false, none⟩⟩)],
              clients := [⟨0, ReadyState.OPEN⟩], clientActiveTab := [(0, "B")],
              tabCounter := 2, pendingIds := [] } "B").2
           ++ [Effect.unlink "/p2"]
           ++ [Effect.send 0 (OutMsg.sessionsList [])]) := by
  have h := c9_delete_open_session_close_first
    { tabOrder := ["A", "B"],
      tabs := [("A", ⟨"A", "a", ⟨"s1", [], false, none⟩⟩),
               ("B", ⟨"B", "b", ⟨"s2", [], false, none⟩⟩)],
      clients := [⟨0, ReadyState.OPEN⟩], clientActiveTab := [(0, "B")],
      tabCounter := 2, pendingIds := [] }
    0 "/p2" [⟨"s2", "/p2", none, "/cwd", 0, 0, 0, "m"⟩] []
    ⟨"s2", "/p2", none, "/cwd", 0, 0, 0, "m"⟩ ⟨"B", "b", ⟨"s2", [], false, none⟩⟩
    (by decide) (by decide) (by decide) (by decide)
  rw [h]
  rfl
